import Mathlib

/-!
# Verification of the personal-blog backend handlers

A shallow embedding of the TypeScript handlers of the blog backend
(`src/server/src/handlers` and the schema in `src/server/src/db/schema.ts`).

The database is modelled as lists of rows.  Timestamps are natural numbers
(`new Date()` at a statement becomes an explicit `now : Nat` parameter).
Handlers that can `throw` are modelled in `Except String`, carrying the
thrown message; since every throwing handler performs only reads before the
first write statement, an `Except.error` result corresponds to an aborted
call that left the database unchanged, so errors carry no state.

The surrogate `id` column of the `article_tags` junction table is never read
by any handler, so a link row is modelled as the pair
`(article_id, tag_id)`.
-/

namespace Blog

inductive ArticleStatus where
  | draft
  | published
deriving DecidableEq, Repr

structure Category where
  id : Nat
  name : String
  slug : String
  description : Option String
  created_at : Nat
  updated_at : Nat
deriving DecidableEq, Repr

structure Tag where
  id : Nat
  name : String
  slug : String
  created_at : Nat
  updated_at : Nat
deriving DecidableEq, Repr

structure Article where
  id : Nat
  title : String
  slug : String
  content : String
  excerpt : Option String
  cover_image : Option String
  status : ArticleStatus
  category_id : Nat
  seo_title : Option String
  seo_description : Option String
  created_at : Nat
  updated_at : Nat
deriving DecidableEq, Repr

structure ArticleTagLink where
  article_id : Nat
  tag_id : Nat
deriving DecidableEq, Repr

structure StaticPage where
  id : Nat
  slug : String
  title : String
  content : String
  seo_title : Option String
  seo_description : Option String
  created_at : Nat
  updated_at : Nat
deriving DecidableEq, Repr

structure DB where
  categories : List Category
  tags : List Tag
  articles : List Article
  articleTags : List ArticleTagLink
  staticPages : List StaticPage
deriving DecidableEq, Repr

structure ArticleWithRelations where
  article : Article
  category : Category
  tags : List Tag
deriving DecidableEq, Repr

/-- The `serial` primary key generation: one more than the largest id in use. -/
def nextId (ids : List Nat) : Nat := ids.foldr max 0 + 1

/-- Comma-joining of ids, `missingTagIds.join(', ')` in the handlers' error messages. -/
def joinIds (ids : List Nat) : String := String.intercalate ", " (ids.map toString)

/-- The query `db.select().from(tagsTable).where(inArray(tagsTable.id, ids))`. -/
def tagsWithIds (db : DB) (ids : List Nat) : List Tag :=
  db.tags.filter (fun t => ids.contains t.id)

/-- The list `input.tag_ids.filter(id => !foundTagIds.includes(id))` where
`foundTagIds = validTags.map(tag => tag.id)`. -/
def missingTagIds (db : DB) (ids : List Nat) : List Nat :=
  ids.filter (fun i => !((tagsWithIds db ids).map Tag.id).contains i)

/-- The test `validTags.length !== input.tag_ids.length`: the tag-validation check of
`createArticle` and `updateArticle` fails. -/
def tagCheckFails (db : DB) (ids : List Nat) : Bool :=
  (tagsWithIds db ids).length != ids.length

/-! ## createArticle (src/server/src/handlers/create_article.ts) -/

structure CreateArticleInput where
  title : String
  slug : String
  content : String
  excerpt : Option String
  cover_image : Option String
  status : ArticleStatus
  category_id : Nat
  tag_ids : Option (List Nat)
  seo_title : Option String
  seo_description : Option String
deriving DecidableEq, Repr

/-- The guard `input.tag_ids && input.tag_ids.length > 0`: an absent list behaves like
`[]` under the length test, so both guards collapse to a length test on this
list. -/
def createTagIds (input : CreateArticleInput) : List Nat := input.tag_ids.getD []

/-- The id the `serial` column assigns to the inserted article. -/
def nextArticleId (db : DB) : Nat := nextId (db.articles.map Article.id)

/-- The inserted article row (`created_at`/`updated_at` default to now). -/
def createdArticle (db : DB) (input : CreateArticleInput) (now : Nat) : Article :=
  { id := nextArticleId db
    title := input.title
    slug := input.slug
    content := input.content
    excerpt := input.excerpt
    cover_image := input.cover_image
    status := input.status
    category_id := input.category_id
    seo_title := input.seo_title
    seo_description := input.seo_description
    created_at := now
    updated_at := now }

/-- The `articleTagValues` inserted into the junction table. -/
def createdLinks (db : DB) (input : CreateArticleInput) : List ArticleTagLink :=
  if (createTagIds input).length > 0 then
    (createTagIds input).map (fun t => ArticleTagLink.mk (nextArticleId db) t)
  else []

/-- The `validTags`, as returned in the response. -/
def createValidTags (db : DB) (input : CreateArticleInput) : List Tag :=
  if (createTagIds input).length > 0 then tagsWithIds db (createTagIds input) else []

/-- The insert statement itself enforces the `articles.slug` unique
constraint (`slug: text('slug').notNull().unique()` in schema.ts): inserting
a slug already stored raises a unique-constraint violation which the handler
rethrows.  The driver's message text is not in the source; the model uses one
fixed string for it. -/
def slugConstraintError : String :=
  "duplicate key value violates unique constraint articles_slug_unique"

def createArticle (db : DB) (input : CreateArticleInput) (now : Nat) :
    Except String (DB × ArticleWithRelations) :=
  match (db.categories.filter (fun c => c.id == input.category_id)).head? with
  | none => .error ("Category with id " ++ toString input.category_id ++ " not found")
  | some cat =>
    if (createTagIds input).length > 0 && tagCheckFails db (createTagIds input) then
      .error ("Tags with ids " ++ joinIds (missingTagIds db (createTagIds input)) ++ " not found")
    else if db.articles.any (fun a => a.slug == input.slug) then
      .error slugConstraintError
    else
      .ok ({ db with
              articles := db.articles ++ [createdArticle db input now]
              articleTags := db.articleTags ++ createdLinks db input },
           ⟨createdArticle db input now, cat, createValidTags db input⟩)

/-! ## updateArticle (src/unnamed/part_018) -/

structure UpdateArticleInput where
  id : Nat
  title : Option String
  slug : Option String
  content : Option String
  excerpt : Option (Option String)
  cover_image : Option (Option String)
  status : Option ArticleStatus
  category_id : Option Nat
  tag_ids : Option (List Nat)
  seo_title : Option (Option String)
  seo_description : Option (Option String)
deriving DecidableEq, Repr

/-- The update input providing no optional field at all (`update(id, {})`). -/
def emptyArticleUpdate (id : Nat) : UpdateArticleInput :=
  ⟨id, none, none, none, none, none, none, none, none, none, none⟩

/-- The `updateValues` object: only provided fields change, `updated_at`
is always set to the current time. -/
def applyArticleUpdate (a : Article) (input : UpdateArticleInput) (now : Nat) : Article :=
  { a with
    updated_at := now
    title := input.title.getD a.title
    slug := input.slug.getD a.slug
    content := input.content.getD a.content
    excerpt := input.excerpt.getD a.excerpt
    cover_image := input.cover_image.getD a.cover_image
    status := input.status.getD a.status
    category_id := input.category_id.getD a.category_id
    seo_title := input.seo_title.getD a.seo_title
    seo_description := input.seo_description.getD a.seo_description }

/-- The tags of one article: `tags innerJoin articleTags on tags.id =
articleTags.tag_id where articleTags.article_id = aid`. -/
def articleTagsFor (db : DB) (aid : Nat) : List Tag :=
  (db.articleTags.filter (fun l => l.article_id == aid)).filterMap
    (fun l => db.tags.find? (fun t => t.id == l.tag_id))

/-- The `updatedArticles` of the update statement: the row with the given id
gets the `updateValues`, every other row is untouched. -/
def newArticles (db : DB) (input : UpdateArticleInput) (now : Nat) : List Article :=
  db.articles.map (fun a => if a.id == input.id then applyArticleUpdate a input now else a)

/-- The link-table contents after the tag-relationship stage of
`updateArticle`: when `tag_ids` was provided, all links of this article are
deleted and one link per listed id is inserted; otherwise the table is
untouched. -/
def newArticleTags (db : DB) (input : UpdateArticleInput) : List ArticleTagLink :=
  match input.tag_ids with
  | none => db.articleTags
  | some ids =>
      db.articleTags.filter (fun l => l.article_id != input.id)
        ++ (if ids.length > 0 then ids.map (fun t => ArticleTagLink.mk input.id t) else [])

/-- The final fetch of `updateArticle`: the article row joined with its
category (`innerJoin`), plus its tags fetched separately. -/
def updateArticleFetch (db' : DB) (input : UpdateArticleInput) :
    Except String (DB × ArticleWithRelations) :=
  match (db'.articles.filter (fun a => a.id == input.id)).head? with
  | none => .error "Article update failed"
  | some a' =>
    match db'.categories.find? (fun c => c.id == a'.category_id) with
    | none => .error "Article update failed"
    | some cat => .ok (db', ⟨a', cat, articleTagsFor db' input.id⟩)

/-- Second half of `updateArticle`, after all validation has passed: the
update statement, the tag-link replacement when `tag_ids` was provided, and
the final fetch. -/
def updateArticleApply (db : DB) (input : UpdateArticleInput) (now : Nat) :
    Except String (DB × ArticleWithRelations) :=
  updateArticleFetch
    { db with articles := newArticles db input now, articleTags := newArticleTags db input }
    input

/-- Tag-id validation stage of `updateArticle`
(`input.tag_ids && input.tag_ids.length > 0`). -/
def updateArticleTags (db : DB) (input : UpdateArticleInput) (now : Nat) :
    Except String (DB × ArticleWithRelations) :=
  match input.tag_ids with
  | some ids =>
    if ids.length > 0 && tagCheckFails db ids then
      .error ("Tags with IDs " ++ joinIds (missingTagIds db ids) ++ " not found")
    else updateArticleApply db input now
  | none => updateArticleApply db input now

def updateArticle (db : DB) (input : UpdateArticleInput) (now : Nat) :
    Except String (DB × ArticleWithRelations) :=
  if (db.articles.filter (fun a => a.id == input.id)).isEmpty then
    .error ("Article with ID " ++ toString input.id ++ " not found")
  else
    match input.category_id with
    | some cid =>
        if (db.categories.filter (fun c => c.id == cid)).isEmpty then
          .error ("Category with ID " ++ toString cid ++ " not found")
        else updateArticleTags db input now
    | none => updateArticleTags db input now

/-! ## deleteArticle (src/unnamed/part_013), deleteTag
(src/server/src/handlers/delete_tag.ts), deleteStaticPage
(src/server/src/handlers/delete_static_page.ts), deleteCategory
(src/unnamed/part_012).

The `article_tags` foreign keys carry `onDelete: 'cascade'`, so deleting an
article or a tag also removes its link rows. -/

def deleteArticle (db : DB) (id : Nat) : DB × Bool :=
  let deleted := db.articles.filter (fun a => a.id == id)
  ({ db with
      articles := db.articles.filter (fun a => a.id != id)
      articleTags := db.articleTags.filter (fun l => l.article_id != id) },
   deleted.length > 0)

def deleteTag (db : DB) (id : Nat) : DB × Bool :=
  if (db.tags.filter (fun t => t.id == id)).isEmpty then
    (db, false)
  else
    ({ db with
        tags := db.tags.filter (fun t => t.id != id)
        articleTags := db.articleTags.filter (fun l => l.tag_id != id) },
     (db.tags.filter (fun t => t.id == id)).length > 0)

def deleteStaticPage (db : DB) (id : Nat) : DB × Bool :=
  if (db.staticPages.filter (fun p => p.id == id)).isEmpty then
    (db, false)
  else
    ({ db with staticPages := db.staticPages.filter (fun p => p.id != id) },
     (db.staticPages.filter (fun p => p.id == id)).length > 0)

def deleteCategory (db : DB) (id : Nat) : Except String (DB × Bool) :=
  if (db.categories.filter (fun c => c.id == id)).isEmpty then
    .error ("Category with id " ++ toString id ++ " not found")
  else if (db.articles.filter (fun a => a.category_id == id)).length > 0 then
    .error ("Cannot delete category: "
      ++ toString (db.articles.filter (fun a => a.category_id == id)).length
      ++ " article(s) are using this category")
  else
    .ok ({ db with categories := db.categories.filter (fun c => c.id != id) }, true)

/-! ## updateCategory (src/unnamed/part_015) -/

structure UpdateCategoryInput where
  id : Nat
  name : Option String
  slug : Option String
  description : Option (Option String)
deriving DecidableEq, Repr

/-- The `updateData` object: only provided fields change, `updated_at` is
always set to the current time. -/
def applyCategoryUpdate (c : Category) (input : UpdateCategoryInput) (now : Nat) : Category :=
  { c with
    updated_at := now
    name := input.name.getD c.name
    slug := input.slug.getD c.slug
    description := input.description.getD c.description }

/-- The categories after the update statement of `updateCategory`. -/
def newCategories (db : DB) (input : UpdateCategoryInput) (now : Nat) : List Category :=
  db.categories.map (fun c =>
    if c.id == input.id then applyCategoryUpdate c input now else c)

def updateCategory (db : DB) (input : UpdateCategoryInput) (now : Nat) :
    Except String (DB × Category) :=
  match ((newCategories db input now).filter (fun c => c.id == input.id)).head? with
  | none => .error ("Category with id " ++ toString input.id ++ " not found")
  | some c => .ok ({ db with categories := newCategories db input now }, c)

/-! ## searchArticles (src/server/src/handlers/search_articles.ts) -/

structure SearchArticlesInput where
  query : Option String
  category_id : Option Nat
  tag_ids : Option (List Nat)
  status : Option ArticleStatus
  limit : Nat
  offset : Nat
deriving DecidableEq, Repr

/-- Raw search input before schema validation (all fields optional). -/
structure RawSearchInput where
  query : Option String
  category_id : Option Nat
  tag_ids : Option (List Nat)
  status : Option ArticleStatus
  limit : Option Int
  offset : Option Int
deriving DecidableEq, Repr

/-- The `searchArticlesInputSchema` zod validation (src/unnamed/part_020):
`limit: z.number().int().min(1).max(100).default(10)`,
`offset: z.number().int().min(0).default(0)`. -/
def parseSearchArticlesInput (raw : RawSearchInput) : Except String SearchArticlesInput :=
  match raw.limit with
  | none => parseOffset raw 10
  | some v => if 1 ≤ v ∧ v ≤ 100 then parseOffset raw v.toNat else .error "limit out of range"
where
  parseOffset (raw : RawSearchInput) (lim : Nat) : Except String SearchArticlesInput :=
    match raw.offset with
    | none => .ok ⟨raw.query, raw.category_id, raw.tag_ids, raw.status, lim, 0⟩
    | some v =>
        if 0 ≤ v then .ok ⟨raw.query, raw.category_id, raw.tag_ids, raw.status, lim, v.toNat⟩
        else .error "offset out of range"

/-- Whether `needle` occurs as a contiguous substring of `hay` (both as char lists). -/
def substrAux (needle : List Char) : List Char → Bool
  | [] => needle.isEmpty
  | c :: rest => needle.isPrefixOf (c :: rest) || substrAux needle rest

/-- ASCII lower-casing of one character (the case folding `ilike` applies). -/
def lowerChar (c : Char) : Char :=
  if 65 ≤ c.toNat ∧ c.toNat ≤ 90 then Char.ofNat (c.toNat + 32) else c

/-- The lower-cased character sequence of a string. -/
def lowerStr (s : String) : List Char := s.toList.map lowerChar

/-- The match `ilike '%needle%'`: case-insensitive substring containment. -/
def containsCI (hay needle : String) : Bool :=
  substrAux (lowerStr needle) (lowerStr hay)

/-- The text-search condition (`if (input.query)` is falsy for the empty
string, so the condition is pushed only for a non-empty query). -/
def queryFilterMatch (input : SearchArticlesInput) (a : Article) : Bool :=
  match input.query with
  | some q => if q.isEmpty then true else containsCI a.title q || containsCI a.content q
  | none => true

/-- The category condition, pushed when `category_id` is provided. -/
def categoryFilterMatch (input : SearchArticlesInput) (a : Article) : Bool :=
  match input.category_id with
  | some c => a.category_id == c
  | none => true

/-- The status condition, pushed when `status` is provided. -/
def statusFilterMatch (input : SearchArticlesInput) (a : Article) : Bool :=
  match input.status with
  | some s => a.status == s
  | none => true

/-- The tag condition (`input.tag_ids && input.tag_ids.length > 0`): the
article id is in the `inArray` subquery of link rows with a listed tag. -/
def tagFilterMatch (db : DB) (input : SearchArticlesInput) (a : Article) : Bool :=
  match input.tag_ids with
  | some ids =>
      if ids.length > 0 then
        db.articleTags.any (fun l => ids.contains l.tag_id && l.article_id == a.id)
      else true
  | none => true

/-- The `conditions` array of the where-clause, combined with `and(...)`. -/
def articleMatches (db : DB) (input : SearchArticlesInput) (a : Article) : Bool :=
  queryFilterMatch input a && categoryFilterMatch input a && statusFilterMatch input a
    && tagFilterMatch db input a

/-- The join `articles innerJoin categories on articles.category_id = categories.id`. -/
def joinedRows (db : DB) : List (Article × Category) :=
  db.articles.filterMap (fun a =>
    (db.categories.find? (fun c => c.id == a.category_id)).map (fun c => (a, c)))

/-- The filtered join, ordered by `created_at` descending: everything of the
primary query up to (but not including) `limit`/`offset`. -/
def searchSorted (db : DB) (input : SearchArticlesInput) : List (Article × Category) :=
  List.insertionSort (fun x y => y.1.created_at ≤ x.1.created_at)
    ((joinedRows db).filter (fun r => articleMatches db input r.1))

def searchArticles (db : DB) (input : SearchArticlesInput) : List ArticleWithRelations :=
  (((searchSorted db input).drop input.offset).take input.limit).map
    (fun r => ⟨r.1, r.2, articleTagsFor db r.1.id⟩)

/-! ## Concrete sample data (used to instantiate the theorems) -/

def catW : Category := ⟨1, "Tech", "tech", none, 0, 0⟩

def tagW1 : Tag := ⟨1, "JS", "js", 0, 0⟩

def tagW2 : Tag := ⟨2, "React", "react", 0, 0⟩

def artW : Article :=
  ⟨1, "Intro to JS", "intro-js", "hello world", none, none, .published, 1, none, none, 5, 5⟩

/-- One category, two tags, one published article tagged with tag 1. -/
def dbW : DB := ⟨[catW], [tagW1, tagW2], [artW], [⟨1, 1⟩], []⟩

/-- Like `dbW` but with no article (so category 1 is unreferenced). -/
def dbNoArt : DB := ⟨[catW], [tagW1, tagW2], [], [], [⟨1, "about", "About", "hi", none, none, 0, 0⟩]⟩

def createInputW : CreateArticleInput :=
  ⟨"T", "t", "c", none, none, .draft, 1, some [1, 1], none, none⟩

def searchInputW : SearchArticlesInput := ⟨none, none, none, none, 10, 0⟩

/-! ## The referential-integrity invariant -/

/-- Every article's `category_id` references an existing category. -/
def categoryRefOk (db : DB) : Prop :=
  ∀ a ∈ db.articles, ∃ c ∈ db.categories, c.id = a.category_id

instance (db : DB) : Decidable (categoryRefOk db) := by
  unfold categoryRefOk; infer_instance

/-! # Theorems -/

/-- A `select ... where id = key` finds a row exactly when one exists. -/
theorem filter_beq_isEmpty_false {α : Type} (key : Nat) (f : α → Nat) (l : List α)
    (hex : ∃ x ∈ l, f x = key) :
    (l.filter (fun x => f x == key)).isEmpty = false := by
  obtain ⟨x, hx, hfx⟩ := hex
  have hmem : x ∈ l.filter (fun x => f x == key) := List.mem_filter.2 ⟨hx, by simp [hfx]⟩
  cases hfl : l.filter (fun x => f x == key) with
  | nil => rw [hfl] at hmem; cases hmem
  | cons a t => simp [List.isEmpty]

theorem filter_beq_eq_nil {α : Type} (key : Nat) (f : α → Nat) (l : List α)
    (hnone : ∀ x ∈ l, f x ≠ key) :
    l.filter (fun x => f x == key) = [] := by
  rw [List.filter_eq_nil_iff]
  intro x hx
  simp [hnone x hx]

theorem updateArticleFetch_ok {dbf db' : DB} {input : UpdateArticleInput}
    {r : ArticleWithRelations}
    (h : updateArticleFetch dbf input = .ok (db', r)) :
    db' = dbf
    ∧ r.tags = articleTagsFor db' input.id
    ∧ (db'.articles.filter (fun a => a.id == input.id)).head? = some r.article := by
  unfold updateArticleFetch at h
  split at h
  · exact absurd h (by simp)
  · rename_i a' ha'
    split at h
    · exact absurd h (by simp)
    · rename_i cat hcat
      simp only [Except.ok.injEq, Prod.mk.injEq] at h
      obtain ⟨hdb, hr⟩ := h
      subst hdb
      subst hr
      exact ⟨rfl, rfl, ha'⟩

theorem updateArticleFetch_eq_ok {db' : DB} {input : UpdateArticleInput} {a' : Article}
    {cat : Category}
    (hhead : (db'.articles.filter (fun a => a.id == input.id)).head? = some a')
    (hfind : db'.categories.find? (fun c => c.id == a'.category_id) = some cat) :
    updateArticleFetch db' input = .ok (db', ⟨a', cat, articleTagsFor db' input.id⟩) := by
  unfold updateArticleFetch
  simp only [hhead, hfind]

theorem updateArticleApply_ok {db : DB} {input : UpdateArticleInput} {now : Nat}
    {db' : DB} {r : ArticleWithRelations}
    (h : updateArticleApply db input now = .ok (db', r)) :
    db' = { db with articles := newArticles db input now, articleTags := newArticleTags db input }
    ∧ r.tags = articleTagsFor db' input.id
    ∧ (db'.articles.filter (fun a => a.id == input.id)).head? = some r.article := by
  have := updateArticleFetch_ok (h := h)
  exact this

theorem updateArticle_ok_elim {db : DB} {input : UpdateArticleInput} {now : Nat}
    {db' : DB} {r : ArticleWithRelations}
    (h : updateArticle db input now = .ok (db', r)) :
    updateArticleApply db input now = .ok (db', r)
    ∧ (db.articles.filter (fun a => a.id == input.id)).isEmpty = false
    ∧ (∀ cid, input.category_id = some cid →
        (db.categories.filter (fun c => c.id == cid)).isEmpty = false)
    ∧ (∀ ids, input.tag_ids = some ids → (ids.length > 0 && tagCheckFails db ids) = false) := by
  unfold updateArticle at h
  split at h
  · exact absurd h (by simp)
  · rename_i hnotempty
    have hne : (db.articles.filter (fun a => a.id == input.id)).isEmpty = false :=
      Bool.eq_false_iff.2 hnotempty
    have hcore : updateArticleTags db input now = .ok (db', r)
        ∧ (∀ cid, input.category_id = some cid →
            (db.categories.filter (fun c => c.id == cid)).isEmpty = false) := by
      split at h
      · rename_i cid hcid
        split at h
        · exact absurd h (by simp)
        · rename_i hcatne
          refine ⟨h, ?_⟩
          intro cid' hcid'
          rw [hcid'] at hcid
          cases hcid
          exact Bool.eq_false_iff.2 hcatne
      · rename_i hcid
        refine ⟨h, ?_⟩
        intro cid' hcid'
        rw [hcid'] at hcid
        cases hcid
    obtain ⟨htags, hcat⟩ := hcore
    unfold updateArticleTags at htags
    split at htags
    · rename_i ids hids
      split at htags
      · exact absurd htags (by simp)
      · rename_i hcheck
        refine ⟨htags, hne, hcat, ?_⟩
        intro ids' hids'
        rw [hids'] at hids
        cases hids
        exact Bool.eq_false_iff.2 hcheck
    · rename_i hids
      refine ⟨htags, hne, hcat, ?_⟩
      intro ids' hids'
      rw [hids'] at hids
      cases hids

/-- C2: on a successful `updateArticle`, a provided `tag_ids` (any array,
including `[]`) replaces all of the article's link rows by exactly one link
per listed id — `tag_ids: []` leaves the article with no tag links and an
empty `.tags` result — while an omitted `tag_ids` leaves the link table
untouched. -/
theorem updateArticle_tag_replacement (db : DB) (input : UpdateArticleInput) (now : Nat)
    (db' : DB) (r : ArticleWithRelations)
    (hok : updateArticle db input now = .ok (db', r)) :
    (∀ ids, input.tag_ids = some ids →
      db'.articleTags =
        db.articleTags.filter (fun l => l.article_id != input.id)
          ++ ids.map (fun t => ArticleTagLink.mk input.id t))
    ∧ (input.tag_ids = some [] →
        (∀ l ∈ db'.articleTags, l.article_id ≠ input.id) ∧ r.tags = [])
    ∧ (input.tag_ids = none → db'.articleTags = db.articleTags) := by
  obtain ⟨happly, -, -, -⟩ := updateArticle_ok_elim hok
  obtain ⟨hdb, hrtags, -⟩ := updateArticleApply_ok happly
  have htagsEq : ∀ ids, input.tag_ids = some ids →
      db'.articleTags =
        db.articleTags.filter (fun l => l.article_id != input.id)
          ++ ids.map (fun t => ArticleTagLink.mk input.id t) := by
    intro ids hids
    rw [hdb]
    show newArticleTags db input = _
    unfold newArticleTags
    rw [hids]
    cases ids with
    | nil => simp
    | cons i t => simp
  refine ⟨htagsEq, ?_, ?_⟩
  · intro hnil
    have hlinks := htagsEq [] hnil
    simp only [List.map_nil, List.append_nil] at hlinks
    have hmem : ∀ l ∈ db'.articleTags, l.article_id ≠ input.id := by
      intro l hl
      rw [hlinks] at hl
      have := (List.mem_filter.1 hl).2
      simpa using this
    refine ⟨hmem, ?_⟩
    rw [hrtags]
    unfold articleTagsFor
    have : db'.articleTags.filter (fun l => l.article_id == input.id) = [] := by
      rw [List.filter_eq_nil_iff]
      intro l hl
      simp [hmem l hl]
    rw [this]
    rfl
  · intro hnone
    rw [hdb]
    show newArticleTags db input = _
    unfold newArticleTags
    rw [hnone]

/-- C2 (witness): updating article 1 of `dbW` with `tag_ids: []` empties
its link rows and its `.tags`; the link table equation of
`updateArticle_tag_replacement` holds at the concrete result. -/
theorem updateArticle_tag_replacement_witness :
    ({ dbW with articles := [{ artW with updated_at := 9 }], articleTags := [] } : DB).articleTags
        = dbW.articleTags.filter (fun l => l.article_id != 1)
            ++ ([] : List Nat).map (fun t => ArticleTagLink.mk 1 t)
    ∧ (⟨{ artW with updated_at := 9 }, catW, []⟩ : ArticleWithRelations).tags = [] := by
  have h := updateArticle_tag_replacement dbW
    { emptyArticleUpdate 1 with tag_ids := some [] } 9
    { dbW with articles := [{ artW with updated_at := 9 }], articleTags := [] }
    ⟨{ artW with updated_at := 9 }, catW, []⟩ (by rfl)
  exact ⟨h.1 [] rfl, (h.2.1 rfl).2⟩

theorem head?_eq_some_mem {α : Type} {l : List α} {a : α} (h : l.head? = some a) : a ∈ l := by
  cases l with
  | nil => cases h
  | cons x xs =>
    injection h with h
    subst h
    exact List.mem_cons_self x xs

/-- Updating the matching rows of a list commutes with selecting the first
matching row, provided the update preserves the selection key. -/
theorem head_filter_map {α : Type} (P : α → Bool) (f : α → α)
    (hf : ∀ a, P (f a) = P a) (l : List α) :
    ((l.map (fun a => if P a then f a else a)).filter P).head? =
      ((l.filter P).head?).map f := by
  induction l with
  | nil => rfl
  | cons a t ih =>
    by_cases h : P a = true
    · simp [List.filter_cons, h, hf]
    · simp only [Bool.not_eq_true] at h
      simp [List.filter_cons, h, ih]

/-- A member of the update statement's output that matches the key carries the
new `updated_at`. -/
theorem mem_newCategories_updated {db : DB} {input : UpdateCategoryInput} {now : Nat}
    {c : Category} (hc : c ∈ newCategories db input now) (hid : (c.id == input.id) = true) :
    c.updated_at = now := by
  unfold newCategories at hc
  obtain ⟨c0, hc0, hceq⟩ := List.mem_map.1 hc
  by_cases h0 : (c0.id == input.id) = true
  · rw [if_pos h0] at hceq
    rw [← hceq]
    rfl
  · rw [if_neg h0] at hceq
    rw [← hceq] at hid
    exact absurd hid h0

theorem mem_newArticles_updated {db : DB} {input : UpdateArticleInput} {now : Nat}
    {a : Article} (ha : a ∈ newArticles db input now) (hid : (a.id == input.id) = true) :
    a.updated_at = now := by
  unfold newArticles at ha
  obtain ⟨a0, ha0, haeq⟩ := List.mem_map.1 ha
  by_cases h0 : (a0.id == input.id) = true
  · rw [if_pos h0] at haeq
    rw [← haeq]
    rfl
  · rw [if_neg h0] at haeq
    rw [← haeq] at hid
    exact absurd hid h0

/-- C9: `update(id, {})` on an existing category or article still sets
`updated_at` to the (strictly later) current time and leaves every other
field — including `created_at` — and every other row unchanged; and every
successful `updateCategory`/`updateArticle` sets the returned row's
`updated_at` to the current time. -/
theorem update_empty_refreshes (db : DB) (id : Nat) (now : Nat) :
    ((∃ c ∈ db.categories, c.id = id) →
      ∃ c', updateCategory db ⟨id, none, none, none⟩ now =
          .ok ({ db with categories := db.categories.map (fun c =>
                   if c.id == id then { c with updated_at := now } else c) }, c')
        ∧ ∃ c ∈ db.categories, c.id = id ∧ c' = { c with updated_at := now }
            ∧ (c.updated_at < now → c.updated_at < c'.updated_at))
    ∧ ((∃ a ∈ db.articles, a.id = id) → categoryRefOk db →
      ∃ r, updateArticle db (emptyArticleUpdate id) now =
          .ok ({ db with articles := db.articles.map (fun a =>
                   if a.id == id then { a with updated_at := now } else a) }, r)
        ∧ ∃ a ∈ db.articles, a.id = id ∧ r.article = { a with updated_at := now }
            ∧ (a.updated_at < now → a.updated_at < r.article.updated_at))
    ∧ (∀ input db' rc, updateCategory db input now = .ok (db', rc) → rc.updated_at = now)
    ∧ (∀ input db' r, updateArticle db input now = .ok (db', r) →
        r.article.updated_at = now) := by
  refine ⟨?_, ?_, ?_, ?_⟩
  · intro hex
    have hfun : (fun c : Category => if c.id == id then applyCategoryUpdate c ⟨id, none, none, none⟩ now else c)
        = (fun c : Category => if c.id == id then { c with updated_at := now } else c) := by
      funext c
      by_cases h : (c.id == id) = true
      · rw [if_pos h, if_pos h]
        rfl
      · rw [if_neg h, if_neg h]
    have hhead := head_filter_map (fun c : Category => c.id == id)
      (fun c => applyCategoryUpdate c ⟨id, none, none, none⟩ now) (fun a => rfl) db.categories
    cases hfl : db.categories.filter (fun c => c.id == id) with
    | nil =>
      obtain ⟨c, hc, hcid⟩ := hex
      have : c ∈ db.categories.filter (fun c => c.id == id) :=
        List.mem_filter.2 ⟨hc, by simp [hcid]⟩
      rw [hfl] at this
      cases this
    | cons c0 t =>
      have hc0 : c0 ∈ db.categories.filter (fun c => c.id == id) := by
        rw [hfl]
        exact List.mem_cons_self c0 t
      have hc0mem := (List.mem_filter.1 hc0).1
      have hc0id : (c0.id == id) = true := (List.mem_filter.1 hc0).2
      rw [hfl] at hhead
      refine ⟨applyCategoryUpdate c0 ⟨id, none, none, none⟩ now, ?_, c0, hc0mem, ?_, ?_, ?_⟩
      · unfold updateCategory newCategories
        rw [hfun] at hhead ⊢
        rw [hhead]
        rfl
      · exact eq_of_beq hc0id
      · rfl
      · intro h
        exact h
  · intro hex hrefok
    have hhead := head_filter_map (fun a : Article => a.id == id)
      (fun a => applyArticleUpdate a (emptyArticleUpdate id) now) (fun a => rfl) db.articles
    cases hfl : db.articles.filter (fun a => a.id == id) with
    | nil =>
      obtain ⟨a, ha, haid⟩ := hex
      have : a ∈ db.articles.filter (fun a => a.id == id) :=
        List.mem_filter.2 ⟨ha, by simp [haid]⟩
      rw [hfl] at this
      cases this
    | cons a0 t =>
      have ha0 : a0 ∈ db.articles.filter (fun a => a.id == id) := by
        rw [hfl]
        exact List.mem_cons_self a0 t
      have ha0mem := (List.mem_filter.1 ha0).1
      have ha0id : (a0.id == id) = true := (List.mem_filter.1 ha0).2
      rw [hfl] at hhead
      have hne : (db.articles.filter (fun a => a.id == (emptyArticleUpdate id).id)).isEmpty = false := by
        show (db.articles.filter (fun a => a.id == id)).isEmpty = false
        rw [hfl]
        rfl
      have hfapply : applyArticleUpdate a0 (emptyArticleUpdate id) now
          = { a0 with updated_at := now } := rfl
      obtain ⟨cat, hcatmem, hcatid⟩ := hrefok a0 ha0mem
      have hfindsome : (db.categories.find?
          (fun c => c.id == (applyArticleUpdate a0 (emptyArticleUpdate id) now).category_id)).isSome
            = true := by
        rw [List.find?_isSome]
        exact ⟨cat, hcatmem, by rw [hfapply]; simp [hcatid]⟩
      obtain ⟨cat', hfind⟩ := Option.isSome_iff_exists.1 hfindsome
      have hheadfull :
          ((newArticles db (emptyArticleUpdate id) now).filter
            (fun a => a.id == id)).head?
          = some (applyArticleUpdate a0 (emptyArticleUpdate id) now) := by
        show ((db.articles.map (fun a =>
            if a.id == id then applyArticleUpdate a (emptyArticleUpdate id) now else a)).filter
              (fun a => a.id == id)).head? = _
        rw [hhead]
        rfl
      have hstep : updateArticle db (emptyArticleUpdate id) now
          = updateArticleFetch
              { db with
                articles := newArticles db (emptyArticleUpdate id) now
                articleTags := newArticleTags db (emptyArticleUpdate id) }
              (emptyArticleUpdate id) := by
        unfold updateArticle
        rw [hne]
        rfl
      have hfetch : updateArticleFetch
          { db with
            articles := newArticles db (emptyArticleUpdate id) now
            articleTags := newArticleTags db (emptyArticleUpdate id) }
          (emptyArticleUpdate id)
          = .ok ({ db with
                articles := newArticles db (emptyArticleUpdate id) now
                articleTags := newArticleTags db (emptyArticleUpdate id) },
              ⟨applyArticleUpdate a0 (emptyArticleUpdate id) now, cat',
                articleTagsFor
                  { db with
                    articles := newArticles db (emptyArticleUpdate id) now
                    articleTags := newArticleTags db (emptyArticleUpdate id) }
                  (emptyArticleUpdate id).id⟩) :=
        updateArticleFetch_eq_ok hheadfull hfind
      have harts : newArticles db (emptyArticleUpdate id) now
          = db.articles.map (fun a => if a.id == id then { a with updated_at := now } else a) := by
        unfold newArticles
        apply List.map_congr_left
        intro a ha
        show (if a.id == id then applyArticleUpdate a (emptyArticleUpdate id) now else a) = _
        by_cases h : (a.id == id) = true
        · rw [if_pos h, if_pos h]
          rfl
        · rw [if_neg h, if_neg h]
      have htagsueq : newArticleTags db (emptyArticleUpdate id) = db.articleTags := rfl
      have hdb2 : ({ db with
            articles := newArticles db (emptyArticleUpdate id) now
            articleTags := newArticleTags db (emptyArticleUpdate id) } : DB)
          = { db with
              articles := db.articles.map
                  (fun a => if a.id == id then { a with updated_at := now } else a) } := by
        rw [harts, htagsueq]
      refine ⟨⟨applyArticleUpdate a0 (emptyArticleUpdate id) now, cat',
          articleTagsFor
            { db with
              articles := newArticles db (emptyArticleUpdate id) now
              articleTags := newArticleTags db (emptyArticleUpdate id) }
            (emptyArticleUpdate id).id⟩, ?_, a0, ha0mem, eq_of_beq ha0id, ?_, ?_⟩
      · rw [hstep, hfetch, hdb2]
      · rfl
      · intro h
        exact h
  · intro input db' rc h
    unfold updateCategory at h
    split at h
    · exact absurd h (by simp)
    · rename_i c hc
      simp only [Except.ok.injEq, Prod.mk.injEq] at h
      obtain ⟨-, hrc⟩ := h
      subst hrc
      have hcmem := head?_eq_some_mem hc
      exact mem_newCategories_updated (List.mem_filter.1 hcmem).1 (List.mem_filter.1 hcmem).2
  · intro input db' r h
    obtain ⟨happly, -, -, -⟩ := updateArticle_ok_elim h
    obtain ⟨hdb, -, hhead⟩ := updateArticleApply_ok happly
    have hmem := head?_eq_some_mem hhead
    have h1 := (List.mem_filter.1 hmem).1
    have h2 := (List.mem_filter.1 hmem).2
    rw [hdb] at h1
    exact mem_newArticles_updated h1 h2

/-- C4: `deleteCategory` on a category referenced by `N ≥ 1` articles fails
with a `ReferentialIntegrityError` whose message contains the count `N`; the
error is thrown before any write statement, so the category row is unchanged
(in the model an `Except.error` result carries no state change).  On an
existing category with zero referencing articles it deletes the row and
returns success. -/
theorem deleteCategory_spec (db : DB) (id : Nat)
    (hex : ∃ c ∈ db.categories, c.id = id) :
    (0 < (db.articles.filter (fun a => a.category_id == id)).length →
      deleteCategory db id =
        .error ("Cannot delete category: "
          ++ toString (db.articles.filter (fun a => a.category_id == id)).length
          ++ " article(s) are using this category"))
    ∧ ((∀ a ∈ db.articles, a.category_id ≠ id) →
      deleteCategory db id =
        .ok ({ db with categories := db.categories.filter (fun c => c.id != id) }, true)) := by
  have hne := filter_beq_isEmpty_false id Category.id db.categories hex
  constructor
  · intro hpos
    simp only [deleteCategory, hne, Bool.false_eq_true, if_false]
    rw [if_pos hpos]
  · intro hnoart
    have hnil := filter_beq_eq_nil id Article.category_id db.articles hnoart
    simp only [deleteCategory, hne, Bool.false_eq_true, if_false, hnil]
    rfl

/-- C4 (witness): instantiation of `deleteCategory_spec` at concrete states. -/
theorem deleteCategory_spec_witness :
    deleteCategory dbW 1 =
      .error "Cannot delete category: 1 article(s) are using this category"
    ∧ deleteCategory dbNoArt 1 =
      .ok ({ dbNoArt with categories := [] }, true) := by
  constructor
  · exact (deleteCategory_spec dbW 1 (by decide)).1 (by decide)
  · exact (deleteCategory_spec dbNoArt 1 (by decide)).2 (by decide)

/-- C8 (counterexample): the claim says every existing row is removed by
its delete operation, but `deleteCategory` on category 1 of `dbW` — an
existing row — throws instead of removing it, because one article references
the category. -/
theorem delete_ops_cex :
    (∃ c ∈ dbW.categories, c.id = 1)
    ∧ deleteCategory dbW 1 =
        .error "Cannot delete category: 1 article(s) are using this category" := by
  exact ⟨by decide, by rfl⟩

/-- C8 (amended): missing ids make `deleteTag`, `deleteArticle` and
`deleteStaticPage` return `success = false` without throwing, while
`deleteCategory` throws `NotFound`; every existing tag, article and static
page is removed by its delete operation, and an existing category is removed
exactly when no article references it. -/
theorem delete_ops_spec (db : DB) (id : Nat) :
    ((∀ t ∈ db.tags, t.id ≠ id) → deleteTag db id = (db, false))
    ∧ ((∀ a ∈ db.articles, a.id ≠ id) →
        (deleteArticle db id).2 = false ∧ (deleteArticle db id).1.articles = db.articles)
    ∧ ((∀ p ∈ db.staticPages, p.id ≠ id) → deleteStaticPage db id = (db, false))
    ∧ ((∀ c ∈ db.categories, c.id ≠ id) →
        deleteCategory db id = .error ("Category with id " ++ toString id ++ " not found"))
    ∧ ((∃ t ∈ db.tags, t.id = id) →
        (deleteTag db id).2 = true ∧ ∀ t ∈ (deleteTag db id).1.tags, t.id ≠ id)
    ∧ ((∃ a ∈ db.articles, a.id = id) →
        (deleteArticle db id).2 = true ∧ ∀ a ∈ (deleteArticle db id).1.articles, a.id ≠ id)
    ∧ ((∃ p ∈ db.staticPages, p.id = id) →
        (deleteStaticPage db id).2 = true ∧ ∀ p ∈ (deleteStaticPage db id).1.staticPages, p.id ≠ id)
    ∧ ((∃ c ∈ db.categories, c.id = id) → (∀ a ∈ db.articles, a.category_id ≠ id) →
        deleteCategory db id =
          .ok ({ db with categories := db.categories.filter (fun c => c.id != id) }, true)
        ∧ ∀ c ∈ db.categories.filter (fun c => c.id != id), c.id ≠ id) := by
  refine ⟨?_, ?_, ?_, ?_, ?_, ?_, ?_, ?_⟩
  · intro h
    simp only [deleteTag, filter_beq_eq_nil id Tag.id db.tags h]
    rfl
  · intro h
    simp only [deleteArticle, filter_beq_eq_nil id Article.id db.articles h]
    constructor
    · rfl
    · simp only [List.filter_eq_self]
      intro a ha
      simp [h a ha]
  · intro h
    simp only [deleteStaticPage, filter_beq_eq_nil id StaticPage.id db.staticPages h]
    rfl
  · intro h
    simp only [deleteCategory, filter_beq_eq_nil id Category.id db.categories h]
    rfl
  · intro h
    have hne := filter_beq_isEmpty_false id Tag.id db.tags h
    simp only [deleteTag, hne, Bool.false_eq_true, if_false]
    constructor
    · obtain ⟨t, ht, htid⟩ := h
      have : t ∈ db.tags.filter (fun t => t.id == id) := List.mem_filter.2 ⟨ht, by simp [htid]⟩
      simp [List.length_pos_iff_ne_nil, List.ne_nil_of_mem this]
    · intro t ht
      have := (List.mem_filter.1 ht).2
      simpa using this
  · intro h
    constructor
    · obtain ⟨a, ha, haid⟩ := h
      have : a ∈ db.articles.filter (fun a => a.id == id) := List.mem_filter.2 ⟨ha, by simp [haid]⟩
      simp [deleteArticle, List.length_pos_iff_ne_nil, List.ne_nil_of_mem this]
    · intro a ha
      have := (List.mem_filter.1 ha).2
      simpa using this
  · intro h
    have hne := filter_beq_isEmpty_false id StaticPage.id db.staticPages h
    simp only [deleteStaticPage, hne, Bool.false_eq_true, if_false]
    constructor
    · obtain ⟨p, hp, hpid⟩ := h
      have : p ∈ db.staticPages.filter (fun p => p.id == id) := List.mem_filter.2 ⟨hp, by simp [hpid]⟩
      simp [List.length_pos_iff_ne_nil, List.ne_nil_of_mem this]
    · intro p hp
      have := (List.mem_filter.1 hp).2
      simpa using this
  · intro hex hnoart
    constructor
    · exact (deleteCategory_spec db id hex).2 hnoart
    · intro c hc
      have := (List.mem_filter.1 hc).2
      simpa using this

/-- C8 (witness): instantiation of `delete_ops_spec` at concrete states. -/
theorem delete_ops_spec_witness :
    deleteTag dbW 5 = (dbW, false)
    ∧ (deleteArticle dbW 7).2 = false
    ∧ deleteStaticPage dbW 5 = (dbW, false)
    ∧ deleteCategory dbW 9 = .error "Category with id 9 not found"
    ∧ (deleteTag dbW 2).2 = true
    ∧ (deleteArticle dbW 1).2 = true
    ∧ (deleteStaticPage dbNoArt 1).2 = true
    ∧ deleteCategory dbNoArt 1 = .ok ({ dbNoArt with categories := [] }, true) := by
  refine ⟨?_, ?_, ?_, ?_, ?_, ?_, ?_, ?_⟩
  · exact (delete_ops_spec dbW 5).1 (by decide)
  · exact ((delete_ops_spec dbW 7).2.1 (by decide)).1
  · exact (delete_ops_spec dbW 5).2.2.1 (by decide)
  · exact (delete_ops_spec dbW 9).2.2.2.1 (by decide)
  · exact ((delete_ops_spec dbW 2).2.2.2.2.1 (by decide)).1
  · exact ((delete_ops_spec dbW 1).2.2.2.2.2.1 (by decide)).1
  · exact ((delete_ops_spec dbNoArt 1).2.2.2.2.2.2.1 (by decide)).1
  · exact ((delete_ops_spec dbNoArt 1).2.2.2.2.2.2.2 (by decide) (by decide)).1

/-- C9 (witness): instantiation of `update_empty_refreshes` at `dbW`:
the rows returned by the two empty updates at time 9 carry `updated_at = 9`. -/
theorem update_empty_refreshes_witness :
    ({ catW with updated_at := 9 } : Category).updated_at = 9
    ∧ ({ artW with updated_at := 9 } : Article).updated_at = 9 := by
  constructor
  · exact (update_empty_refreshes dbW 1 9).2.2.1 ⟨1, none, none, none⟩
      { dbW with categories := [{ catW with updated_at := 9 }] }
      { catW with updated_at := 9 } rfl
  · exact (update_empty_refreshes dbW 1 9).2.2.2 (emptyArticleUpdate 1)
      { dbW with articles := [{ artW with updated_at := 9 }] }
      ⟨{ artW with updated_at := 9 }, catW, [tagW1]⟩ rfl

theorem exists_of_filter_isEmpty_false {α : Type} {p : α → Bool} {l : List α}
    (h : (l.filter p).isEmpty = false) : ∃ x ∈ l, p x = true := by
  cases hfl : l.filter p with
  | nil => rw [hfl] at h; cases h
  | cons x xs =>
    have hx : x ∈ l.filter p := by
      rw [hfl]
      exact List.mem_cons_self x xs
    exact ⟨x, (List.mem_filter.1 hx).1, (List.mem_filter.1 hx).2⟩

theorem createArticle_ok_elim {db : DB} {input : CreateArticleInput} {now : Nat}
    {db' : DB} {r : ArticleWithRelations}
    (h : createArticle db input now = .ok (db', r)) :
    (∃ cat ∈ db.categories, cat.id = input.category_id ∧ r.category = cat)
    ∧ db' = { db with
        articles := db.articles ++ [createdArticle db input now]
        articleTags := db.articleTags ++ createdLinks db input }
    ∧ r.article = createdArticle db input now
    ∧ r.tags = createValidTags db input
    ∧ ((createTagIds input).length > 0 && tagCheckFails db (createTagIds input)) = false
    ∧ db.articles.any (fun a => a.slug == input.slug) = false := by
  unfold createArticle at h
  split at h
  · exact absurd h (by simp)
  · rename_i cat hcat
    split at h
    · exact absurd h (by simp)
    · rename_i hcheck
      split at h
      · exact absurd h (by simp)
      · rename_i hslug
        simp only [Except.ok.injEq, Prod.mk.injEq] at h
        obtain ⟨hdb, hr⟩ := h
        subst hdb
        subst hr
        have hmem := head?_eq_some_mem hcat
        exact ⟨⟨cat, (List.mem_filter.1 hmem).1, eq_of_beq (List.mem_filter.1 hmem).2, rfl⟩,
          rfl, rfl, rfl, Bool.eq_false_iff.2 hcheck, Bool.eq_false_iff.2 hslug⟩

/-- C1: referential integrity of `category_id`: `createArticle` fails with
`NotFound` (before inserting anything — the model only changes state on
`Except.ok`) when the given `category_id` matches no category, `updateArticle`
fails with `NotFound` when a provided `category_id` matches no category,
`deleteCategory` never succeeds while an article references the category, and
all three operations preserve the invariant `categoryRefOk`. -/
theorem category_ref_integrity (db : DB) (now : Nat) :
    (∀ input : CreateArticleInput, (∀ c ∈ db.categories, c.id ≠ input.category_id) →
      createArticle db input now =
        .error ("Category with id " ++ toString input.category_id ++ " not found"))
    ∧ (∀ input db' r, categoryRefOk db → createArticle db input now = .ok (db', r) →
        categoryRefOk db')
    ∧ (∀ (input : UpdateArticleInput) cid, input.category_id = some cid →
        (∃ a ∈ db.articles, a.id = input.id) → (∀ c ∈ db.categories, c.id ≠ cid) →
        updateArticle db input now =
          .error ("Category with ID " ++ toString cid ++ " not found"))
    ∧ (∀ input db' r, categoryRefOk db → updateArticle db input now = .ok (db', r) →
        categoryRefOk db')
    ∧ (∀ id, (∃ a ∈ db.articles, a.category_id = id) →
        ∀ x, deleteCategory db id ≠ .ok x)
    ∧ (∀ id db' s, categoryRefOk db → deleteCategory db id = .ok (db', s) →
        categoryRefOk db') := by
  refine ⟨?_, ?_, ?_, ?_, ?_, ?_⟩
  · intro input hnone
    have hnil := filter_beq_eq_nil input.category_id Category.id db.categories hnone
    unfold createArticle
    rw [hnil]
    rfl
  · intro input db' r hinv hok
    obtain ⟨⟨cat, hcatmem, hcatid, -⟩, hdb, -, -, -, -⟩ := createArticle_ok_elim hok
    subst hdb
    intro a ha
    simp only [List.mem_append, List.mem_singleton] at ha
    rcases ha with ha | ha
    · exact hinv a ha
    · subst ha
      exact ⟨cat, hcatmem, hcatid⟩
  · intro input cid hcid hex hnocat
    have hne : (db.articles.filter (fun a => a.id == input.id)).isEmpty = false := by
      obtain ⟨a, ha, haid⟩ := hex
      exact filter_beq_isEmpty_false input.id Article.id db.articles ⟨a, ha, haid⟩
    have hnil := filter_beq_eq_nil cid Category.id db.categories hnocat
    unfold updateArticle
    rw [hne]
    simp only [Bool.false_eq_true, if_false, hcid, hnil]
    rfl
  · intro input db' r hinv hok
    obtain ⟨happly, -, hcatcheck, -⟩ := updateArticle_ok_elim hok
    obtain ⟨hdb, -, -⟩ := updateArticleApply_ok happly
    subst hdb
    intro a' ha'
    simp only [newArticles, List.mem_map] at ha'
    obtain ⟨a, ha, haeq⟩ := ha'
    by_cases hid : (a.id == input.id) = true
    · rw [if_pos hid] at haeq
      subst haeq
      show ∃ c ∈ db.categories, c.id = (applyArticleUpdate a input now).category_id
      cases hcinp : input.category_id with
      | none =>
        have : (applyArticleUpdate a input now).category_id = a.category_id := by
          unfold applyArticleUpdate
          rw [hcinp]
          rfl
        rw [this]
        exact hinv a ha
      | some cid =>
        have hcfilter := hcatcheck cid hcinp
        obtain ⟨c, hcmem, hcid⟩ := exists_of_filter_isEmpty_false hcfilter
        have : (applyArticleUpdate a input now).category_id = cid := by
          unfold applyArticleUpdate
          rw [hcinp]
          exact eq_of_beq (by exact hcid) ▸ rfl
        rw [this]
        exact ⟨c, hcmem, eq_of_beq hcid⟩
    · rw [if_neg hid] at haeq
      subst haeq
      exact hinv a ha
  · intro id hex x heq
    unfold deleteCategory at heq
    split at heq
    · exact absurd heq (by simp)
    · split at heq
      · exact absurd heq (by simp)
      · rename_i hlen
        obtain ⟨a, ha, haid⟩ := hex
        have : a ∈ db.articles.filter (fun a => a.category_id == id) :=
          List.mem_filter.2 ⟨ha, by simp [haid]⟩
        exact hlen (List.length_pos_iff_ne_nil.2 (List.ne_nil_of_mem this))
  · intro id db' s hinv heq
    unfold deleteCategory at heq
    split at heq
    · exact absurd heq (by simp)
    · split at heq
      · exact absurd heq (by simp)
      · rename_i hlen
        simp only [Except.ok.injEq, Prod.mk.injEq] at heq
        obtain ⟨hdb, -⟩ := heq
        subst hdb
        have hnoart : ∀ a ∈ db.articles, a.category_id ≠ id := by
          intro a ha haid
          have : a ∈ db.articles.filter (fun a => a.category_id == id) :=
            List.mem_filter.2 ⟨ha, by simp [haid]⟩
          exact hlen (List.length_pos_iff_ne_nil.2 (List.ne_nil_of_mem this))
        intro a ha
        obtain ⟨c, hcmem, hcid⟩ := hinv a ha
        refine ⟨c, List.mem_filter.2 ⟨hcmem, ?_⟩, hcid⟩
        have : c.id ≠ id := by
          rw [hcid]
          exact hnoart a ha
        simp [this]

/-- C1 (witness): instantiation of `category_ref_integrity` at `dbW`. -/
theorem category_ref_integrity_witness :
    createArticle dbW { createInputW with category_id := 9, tag_ids := none } 7 =
      .error "Category with id 9 not found"
    ∧ updateArticle dbW { emptyArticleUpdate 1 with category_id := some 9 } 7 =
      .error "Category with ID 9 not found"
    ∧ deleteCategory dbW 1 ≠ .ok ({ dbW with categories := [] }, true)
    ∧ categoryRefOk ({ dbNoArt with categories := [] } : DB) := by
  refine ⟨?_, ?_, ?_, ?_⟩
  · exact (category_ref_integrity dbW 7).1 _ (by decide)
  · exact (category_ref_integrity dbW 7).2.2.1 _ 9 rfl (by decide) (by decide)
  · exact (category_ref_integrity dbW 7).2.2.2.2.1 1 (by decide) _
  · exact (category_ref_integrity dbNoArt 7).2.2.2.2.2 1 { dbNoArt with categories := [] } true
      (by decide) ((deleteCategory_spec dbNoArt 1 (by decide)).2 (by decide))


/-! ### Tag-validation lemmas -/

theorem mem_tagsWithIds_map {db : DB} {ids : List Nat} {i : Nat} :
    i ∈ (tagsWithIds db ids).map Tag.id ↔ (∃ t ∈ db.tags, t.id = i) ∧ i ∈ ids := by
  unfold tagsWithIds
  simp only [List.mem_map, List.mem_filter, List.elem_iff]
  constructor
  · rintro ⟨t, ⟨ht, hc⟩, rfl⟩
    exact ⟨⟨t, ht, rfl⟩, by simpa [List.elem_iff] using hc⟩
  · rintro ⟨⟨t, ht, rfl⟩, hi⟩
    exact ⟨t, ⟨ht, by simpa [List.elem_iff] using hi⟩, rfl⟩

theorem tagsWithIds_map_nodup {db : DB} (ids : List Nat)
    (htags : (db.tags.map Tag.id).Nodup) :
    ((tagsWithIds db ids).map Tag.id).Nodup :=
  ((List.filter_sublist _).map Tag.id).nodup htags

theorem missingTagIds_eq (db : DB) (ids : List Nat) :
    missingTagIds db ids = ids.filter (fun i => !(db.tags.any (fun t => t.id == i))) := by
  unfold missingTagIds
  apply List.filter_congr
  intro i hi
  have hmem : ((tagsWithIds db ids).map Tag.id).contains i = db.tags.any (fun t => t.id == i) := by
    rw [Bool.eq_iff_iff]
    simp only [List.contains_iff_exists_mem_beq, List.any_eq_true, beq_iff_eq]
    constructor
    · rintro ⟨j, hj, hji⟩
      obtain ⟨⟨t, ht, hti⟩, -⟩ := mem_tagsWithIds_map.1 hj
      exact ⟨t, ht, hti.trans hji.symm⟩
    · rintro ⟨t, ht, hti⟩
      exact ⟨i, mem_tagsWithIds_map.2 ⟨⟨t, ht, hti⟩, hi⟩, by simp⟩
  rw [hmem]

theorem missingTagIds_nil {db : DB} {ids : List Nat}
    (hall : ∀ i ∈ ids, ∃ t ∈ db.tags, t.id = i) :
    missingTagIds db ids = [] := by
  rw [missingTagIds_eq, List.filter_eq_nil_iff]
  intro i hi
  obtain ⟨t, ht, hti⟩ := hall i hi
  have hany : db.tags.any (fun t => t.id == i) = true :=
    List.any_eq_true.2 ⟨t, ht, by simp [hti]⟩
  simp [hany]

theorem tagCheckFails_false {db : DB} {ids : List Nat}
    (hall : ∀ i ∈ ids, ∃ t ∈ db.tags, t.id = i) (hnd : ids.Nodup)
    (htags : (db.tags.map Tag.id).Nodup) :
    tagCheckFails db ids = false := by
  have hFnd := tagsWithIds_map_nodup ids htags
  have hsub1 : (tagsWithIds db ids).map Tag.id ⊆ ids := by
    intro i hi
    exact (mem_tagsWithIds_map.1 hi).2
  have hsub2 : ids ⊆ (tagsWithIds db ids).map Tag.id := by
    intro i hi
    exact mem_tagsWithIds_map.2 ⟨hall i hi, hi⟩
  have h1 := (hFnd.subperm hsub1).length_le
  have h2 := (hnd.subperm hsub2).length_le
  have hlen : (tagsWithIds db ids).length = ids.length := by
    rw [← List.length_map (tagsWithIds db ids) Tag.id]
    omega
  simp [tagCheckFails, hlen]

theorem tagCheckFails_true_of_missing {db : DB} {ids : List Nat} {i : Nat}
    (hi : i ∈ ids) (hmiss : ∀ t ∈ db.tags, t.id ≠ i)
    (htags : (db.tags.map Tag.id).Nodup) :
    tagCheckFails db ids = true := by
  have hFnd := tagsWithIds_map_nodup ids htags
  have hsub : (tagsWithIds db ids).map Tag.id ⊆ ids.erase i := by
    intro j hj
    obtain ⟨⟨t, ht, hti⟩, hjids⟩ := mem_tagsWithIds_map.1 hj
    have hji : j ≠ i := by
      intro h
      exact hmiss t ht (by rw [hti, h])
    exact (List.mem_erase_of_ne hji).2 hjids
  have hle := (hFnd.subperm hsub).length_le
  have herase := List.length_erase_of_mem hi
  have hpos : 0 < ids.length := List.length_pos_of_mem hi
  have hlt : (tagsWithIds db ids).length < ids.length := by
    rw [← List.length_map (tagsWithIds db ids) Tag.id]
    omega
  simp [tagCheckFails, Nat.ne_of_lt hlt]

theorem tagCheckFails_true_of_dup {db : DB} {ids : List Nat}
    (hdup : ¬ ids.Nodup)
    (htags : (db.tags.map Tag.id).Nodup) :
    tagCheckFails db ids = true := by
  have hFnd := tagsWithIds_map_nodup ids htags
  have hsub1 : (tagsWithIds db ids).map Tag.id ⊆ ids := by
    intro j hj
    exact (mem_tagsWithIds_map.1 hj).2
  have hsp := hFnd.subperm hsub1
  have hne : (tagsWithIds db ids).length ≠ ids.length := by
    intro hlen
    have hlen2 : ids.length ≤ ((tagsWithIds db ids).map Tag.id).length := by
      rw [List.length_map]
      omega
    exact hdup ((hsp.perm_of_length_le hlen2).nodup hFnd)
  simp [tagCheckFails, hne]


/-- C10: because tag validation compares the number of distinct fetched
tags against the length of the input list, a `tag_ids` list that repeats an
existing id makes `createArticle` and `updateArticle` throw the
`Tags ... not found` error even though every listed id exists, and the
computed missing-id list is empty, so the message names no ids at all. -/
theorem duplicate_tag_ids_error (db : DB) (now : Nat) (ids : List Nat)
    (hdup : ¬ ids.Nodup) (hall : ∀ i ∈ ids, ∃ t ∈ db.tags, t.id = i)
    (htags : (db.tags.map Tag.id).Nodup) :
    (∀ input : CreateArticleInput, input.tag_ids = some ids →
      (∃ c ∈ db.categories, c.id = input.category_id) →
      createArticle db input now = .error "Tags with ids  not found")
    ∧ (∀ input : UpdateArticleInput, input.tag_ids = some ids →
        input.category_id = none → (∃ a ∈ db.articles, a.id = input.id) →
        updateArticle db input now = .error "Tags with IDs  not found") := by
  have hnempty : ids ≠ [] := fun h => hdup (h ▸ List.nodup_nil)
  have hcheck := tagCheckFails_true_of_dup hdup htags
  have hmiss := missingTagIds_nil hall
  have hlen : decide (0 < ids.length) = true := by
    cases ids with
    | nil => exact absurd rfl hnempty
    | cons i t => simp
  constructor
  · intro input hids hcat
    have htagIds : createTagIds input = ids := by
      unfold createTagIds
      rw [hids]
      rfl
    cases hfl : db.categories.filter (fun c => c.id == input.category_id) with
    | nil =>
      obtain ⟨c, hc, hcid⟩ := hcat
      have : c ∈ db.categories.filter (fun c => c.id == input.category_id) :=
        List.mem_filter.2 ⟨hc, by simp [hcid]⟩
      rw [hfl] at this
      cases this
    | cons c0 t =>
      unfold createArticle
      rw [hfl]
      simp only [List.head?_cons, htagIds, hcheck, hlen, Bool.and_self, if_true]
      rw [hmiss]
      rfl
  · intro input hids hcatnone hex
    have hne : (db.articles.filter (fun a => a.id == input.id)).isEmpty = false := by
      obtain ⟨a, ha, haid⟩ := hex
      exact filter_beq_isEmpty_false input.id Article.id db.articles ⟨a, ha, haid⟩
    unfold updateArticle
    rw [hne]
    simp only [Bool.false_eq_true, if_false, hcatnone]
    unfold updateArticleTags
    rw [hids]
    simp only [hcheck, hlen, Bool.and_self, if_true]
    rw [hmiss]
    rfl

/-- C10 (witness): `tag_ids = [1,1]` (tag 1 exists) on create and
`tag_ids = [2,2]` (tag 2 exists) on update both throw with no ids named. -/
theorem duplicate_tag_ids_error_witness :
    createArticle dbW { createInputW with tag_ids := some [2, 2] } 9 =
      .error "Tags with ids  not found"
    ∧ updateArticle dbW { emptyArticleUpdate 1 with tag_ids := some [2, 2] } 9 =
      .error "Tags with IDs  not found" := by
  constructor
  · exact (duplicate_tag_ids_error dbW 9 [2, 2] (by decide) (by decide) (by decide)).1
      { createInputW with tag_ids := some [2, 2] } rfl (by decide)
  · exact (duplicate_tag_ids_error dbW 9 [2, 2] (by decide) (by decide) (by decide)).2
      { emptyArticleUpdate 1 with tag_ids := some [2, 2] } rfl rfl (by decide)

/-- C3 (counterexample): `createInputW` lists `tag_ids = [1,1]` — every
listed id has an existing tag in `dbW` — yet `createArticle` fails, so the
claim that it fails exactly when some listed id has no existing tag is false
as stated. -/
theorem createArticle_tag_cex :
    (∀ i ∈ createTagIds createInputW, ∃ t ∈ dbW.tags, t.id = i)
    ∧ createArticle dbW createInputW 9 = .error "Tags with ids  not found" :=
  ⟨by decide, by rfl⟩

/-- C3 (amended): for a duplicate-free non-empty `tag_ids` list (and a
valid category), `createArticle` fails with `NotFound` exactly when some
listed id has no existing tag; the message names all of the missing ids,
comma-joined in input order, and no others; when every listed id exists and
the slug is fresh, the article row and one tag link per listed id are
inserted, while a colliding slug instead raises the unique-constraint
violation of `articles.slug` after tag validation has passed. -/
theorem createArticle_tag_validation (db : DB) (input : CreateArticleInput) (now : Nat)
    (ids : List Nat) (hids : input.tag_ids = some ids) (hnempty : ids ≠ [])
    (hnd : ids.Nodup) (htags : (db.tags.map Tag.id).Nodup)
    (hcat : ∃ c ∈ db.categories, c.id = input.category_id) :
    ((∃ i ∈ ids, ∀ t ∈ db.tags, t.id ≠ i) →
      createArticle db input now =
        .error ("Tags with ids "
          ++ joinIds (ids.filter (fun i => !(db.tags.any (fun t => t.id == i))))
          ++ " not found"))
    ∧ ((∀ i ∈ ids, ∃ t ∈ db.tags, t.id = i) →
        (∀ a ∈ db.articles, a.slug ≠ input.slug) →
        ∃ db' r, createArticle db input now = .ok (db', r)
          ∧ db'.articles = db.articles ++ [r.article]
          ∧ db'.articleTags = db.articleTags
              ++ ids.map (fun t => ArticleTagLink.mk r.article.id t))
    ∧ ((∀ i ∈ ids, ∃ t ∈ db.tags, t.id = i) →
        (∃ a ∈ db.articles, a.slug = input.slug) →
        createArticle db input now = .error slugConstraintError) := by
  have htagIds : createTagIds input = ids := by
    unfold createTagIds
    rw [hids]
    rfl
  have hlen : decide (0 < ids.length) = true := by
    cases ids with
    | nil => exact absurd rfl hnempty
    | cons i t => simp
  cases hfl : db.categories.filter (fun c => c.id == input.category_id) with
  | nil =>
    obtain ⟨c, hc, hcid⟩ := hcat
    have : c ∈ db.categories.filter (fun c => c.id == input.category_id) :=
      List.mem_filter.2 ⟨hc, by simp [hcid]⟩
    rw [hfl] at this
    cases this
  | cons c0 t =>
    refine ⟨?_, ?_, ?_⟩
    · rintro ⟨i, hi, hmissi⟩
      have hcheck := tagCheckFails_true_of_missing hi hmissi htags
      unfold createArticle
      rw [hfl]
      simp only [List.head?_cons, htagIds, hcheck, hlen, Bool.and_self, if_true]
      rw [missingTagIds_eq]
    · intro hall hslug
      have hcheck := tagCheckFails_false hall hnd htags
      have hslugf : db.articles.any (fun a => a.slug == input.slug) = false := by
        rw [List.any_eq_false]
        intro a ha
        simp [hslug a ha]
      have hlinks : createdLinks db input
          = ids.map (fun t => ArticleTagLink.mk (nextArticleId db) t) := by
        unfold createdLinks
        rw [htagIds]
        rw [if_pos (of_decide_eq_true hlen)]
      refine ⟨{ db with
          articles := db.articles ++ [createdArticle db input now]
          articleTags := db.articleTags ++ createdLinks db input },
        ⟨createdArticle db input now, c0, createValidTags db input⟩, ?_, rfl, ?_⟩
      · unfold createArticle
        rw [hfl]
        simp only [List.head?_cons, htagIds, hcheck, Bool.and_false, Bool.false_eq_true,
          if_false, hslugf]
      · show db.articleTags ++ createdLinks db input = _
        rw [hlinks]
        rfl
    · intro hall hslug
      have hcheck := tagCheckFails_false hall hnd htags
      have hslugt : db.articles.any (fun a => a.slug == input.slug) = true := by
        obtain ⟨a, ha, haslug⟩ := hslug
        exact List.any_eq_true.2 ⟨a, ha, by simp [haslug]⟩
      unfold createArticle
      rw [hfl]
      simp only [List.head?_cons, htagIds, hcheck, Bool.and_false, Bool.false_eq_true,
        if_false, hslugt, if_true]

/-- C3 (witness): with `tag_ids = [1, 7]` in `dbW` only id 7 is missing
and the error names exactly `7`; with `tag_ids = [1, 2]` and a fresh slug the
creation succeeds; with the stored slug "intro-js" it raises the
unique-constraint violation instead. -/
theorem createArticle_tag_validation_witness :
    createArticle dbW { createInputW with tag_ids := some [1, 7] } 9 =
      .error "Tags with ids 7 not found"
    ∧ (createArticle dbW { createInputW with tag_ids := some [1, 2] } 9).isOk = true
    ∧ createArticle dbW { createInputW with tag_ids := some [1, 2], slug := "intro-js" } 9 =
      .error slugConstraintError := by
  refine ⟨?_, ?_, ?_⟩
  · have h := (createArticle_tag_validation dbW { createInputW with tag_ids := some [1, 7] } 9
        [1, 7] rfl (by decide) (by decide) (by decide) (by decide)).1 (by decide)
    exact h.trans (by rfl)
  · obtain ⟨db', r, heq, -, -⟩ :=
      (createArticle_tag_validation dbW { createInputW with tag_ids := some [1, 2] } 9
        [1, 2] rfl (by decide) (by decide) (by decide) (by decide)).2.1 (by decide) (by decide)
    rw [heq]
    rfl
  · exact (createArticle_tag_validation dbW
      { createInputW with tag_ids := some [1, 2], slug := "intro-js" } 9
      [1, 2] rfl (by decide) (by decide) (by decide) (by decide)).2.2 (by decide) (by decide)


/-! ### Search lemmas -/

theorem filterMap_sublist_map {α β : Type} (f : α → Option β) (g : α → β)
    (hf : ∀ a b, f a = some b → b = g a) :
    ∀ l : List α, List.Sublist (l.filterMap f) (l.map g) := by
  intro l
  induction l with
  | nil => simp
  | cons a t ih =>
    rw [List.filterMap_cons, List.map_cons]
    cases hfa : f a with
    | none => exact ih.cons _
    | some b =>
      rw [hf a b hfa]
      exact ih.cons₂ _

/-- The primary query of `searchArticles` produces each article at most once
(the tag filter is an `inArray` subquery, not a join), so article ids in the
join rows are distinct whenever the stored ids are. -/
theorem joinedRows_fst_id_nodup (db : DB) (h : (db.articles.map Article.id).Nodup) :
    ((joinedRows db).map (fun p => p.1.id)).Nodup := by
  unfold joinedRows
  rw [List.map_filterMap]
  refine List.Nodup.sublist (filterMap_sublist_map _ Article.id ?_ db.articles) h
  intro a i hi
  simp only [Option.map_map, Option.map_eq_some'] at hi
  obtain ⟨c, -, hci⟩ := hi
  exact hci.symm

theorem searchSorted_fst_id_nodup (db : DB) (input : SearchArticlesInput)
    (h : (db.articles.map Article.id).Nodup) :
    ((searchSorted db input).map (fun p => p.1.id)).Nodup := by
  have h1 := joinedRows_fst_id_nodup db h
  have h2 : ((((joinedRows db).filter (fun r => articleMatches db input r.1))).map
      (fun p : Article × Category => p.1.id)).Nodup :=
    List.Nodup.sublist ((List.filter_sublist _).map (fun p : Article × Category => p.1.id)) h1
  exact ((List.perm_insertionSort _ _).map (fun p : Article × Category => p.1.id)).nodup_iff.2 h2

theorem searchArticles_map_id_eq (db : DB) (input : SearchArticlesInput) :
    (searchArticles db input).map (fun r => r.article.id)
      = (((searchSorted db input).drop input.offset).take input.limit).map
          (fun p => p.1.id) := by
  unfold searchArticles
  rw [List.map_map]
  rfl

theorem searchArticles_id_nodup (db : DB) (input : SearchArticlesInput)
    (h : (db.articles.map Article.id).Nodup) :
    ((searchArticles db input).map (fun r => r.article.id)).Nodup := by
  rw [searchArticles_map_id_eq]
  exact List.Nodup.sublist
    (((List.take_sublist _ _).trans (List.drop_sublist _ _)).map
      (fun p : Article × Category => p.1.id))
    (searchSorted_fst_id_nodup db input h)

theorem mem_searchSorted_iff {db : DB} {input : SearchArticlesInput}
    {p : Article × Category} :
    p ∈ searchSorted db input ↔
      p ∈ joinedRows db ∧ articleMatches db input p.1 = true := by
  unfold searchSorted
  rw [(List.perm_insertionSort _ _).mem_iff, List.mem_filter]

theorem tagFilterMatch_eq {db : DB} {input : SearchArticlesInput} {a : Article}
    {ids : List Nat} (hids : input.tag_ids = some ids) (hpos : 0 < ids.length) :
    tagFilterMatch db input a =
      db.articleTags.any (fun l => ids.contains l.tag_id && l.article_id == a.id) := by
  unfold tagFilterMatch
  rw [hids]
  show (if ids.length > 0 then
      db.articleTags.any (fun l => ids.contains l.tag_id && l.article_id == a.id)
    else true) = _
  exact if_pos hpos

/-- The where-clause splits as: the other filters AND the tag condition. -/
theorem articleMatches_tag_decomp (db : DB) (input : SearchArticlesInput)
    (a : Article) (ids : List Nat) (hids : input.tag_ids = some ids) (hne : ids ≠ []) :
    articleMatches db input a =
      ((queryFilterMatch input a && categoryFilterMatch input a && statusFilterMatch input a)
        && db.articleTags.any (fun l => ids.contains l.tag_id && l.article_id == a.id)) := by
  have hpos : 0 < ids.length := by
    cases ids with
    | nil => exact absurd rfl hne
    | cons i t => simp
  unfold articleMatches
  rw [tagFilterMatch_eq hids hpos]

/-- C5: with a non-empty `tag_ids` filter, the filtered result set of
`searchArticles` contains exactly the join rows that pass the other filters
and whose article has at least one link to a listed tag id (OR within the tag
list, AND with the other filters), and under distinct stored article ids no
article id occurs twice in the returned page. -/
theorem searchArticles_tag_filter (db : DB) (input : SearchArticlesInput)
    (ids : List Nat) (hids : input.tag_ids = some ids) (hne : ids ≠ []) :
    (∀ p : Article × Category, p ∈ searchSorted db input ↔
      p ∈ joinedRows db
      ∧ (queryFilterMatch input p.1 && categoryFilterMatch input p.1
          && statusFilterMatch input p.1) = true
      ∧ ∃ l ∈ db.articleTags, l.article_id = p.1.id ∧ l.tag_id ∈ ids)
    ∧ ((db.articles.map Article.id).Nodup →
        ((searchArticles db input).map (fun r => r.article.id)).Nodup) := by
  constructor
  · intro p
    rw [mem_searchSorted_iff, articleMatches_tag_decomp db input p.1 ids hids hne]
    rw [Bool.and_eq_true]
    constructor
    · rintro ⟨hrow, hother, hany⟩
      obtain ⟨l, hl, hcond⟩ := List.any_eq_true.1 hany
      rw [Bool.and_eq_true] at hcond
      refine ⟨hrow, hother, l, hl, eq_of_beq hcond.2, ?_⟩
      exact List.elem_iff.1 hcond.1
    · rintro ⟨hrow, hother, l, hl, haid, htag⟩
      refine ⟨hrow, hother, List.any_eq_true.2 ⟨l, hl, ?_⟩⟩
      rw [Bool.and_eq_true]
      exact ⟨List.elem_iff.2 htag, by simp [haid]⟩
  · exact searchArticles_id_nodup db input

/-- C5 (witness): instantiation at `dbW` with `tag_ids = [1, 9]`: the join
row of article 1 is in the filtered set (it is tagged 1), and ids in the
returned page are distinct. -/
theorem searchArticles_tag_filter_witness :
    ((artW, catW) ∈ searchSorted dbW { searchInputW with tag_ids := some [1, 9] } ↔
      (artW, catW) ∈ joinedRows dbW
      ∧ (queryFilterMatch { searchInputW with tag_ids := some [1, 9] } artW
          && categoryFilterMatch { searchInputW with tag_ids := some [1, 9] } artW
          && statusFilterMatch { searchInputW with tag_ids := some [1, 9] } artW) = true
      ∧ ∃ l ∈ dbW.articleTags, l.article_id = artW.id ∧ l.tag_id ∈ [1, 9])
    ∧ ((searchArticles dbW { searchInputW with tag_ids := some [1, 9] }).map
        (fun r => r.article.id)).Nodup := by
  have h := searchArticles_tag_filter dbW { searchInputW with tag_ids := some [1, 9] }
    [1, 9] rfl (by decide)
  exact ⟨h.1 (artW, catW), h.2 (by decide)⟩


theorem substrAux_eq_true_iff (n : List Char) :
    ∀ h : List Char, substrAux n h = true ↔ List.IsInfix n h := by
  intro h
  induction h with
  | nil =>
    show n.isEmpty = true ↔ _
    rw [List.isEmpty_iff, List.infix_nil]
  | cons c rest ih =>
    show (n.isPrefixOf (c :: rest) || substrAux n rest) = true ↔ _
    rw [Bool.or_eq_true, ih, List.infix_cons_iff]
    constructor
    · rintro (hp | hi)
      · exact Or.inl ( List.isPrefixOf_iff_prefix.1 hp)
      · exact Or.inr hi
    · rintro (hp | hi)
      · exact Or.inl ( List.isPrefixOf_iff_prefix.2 hp)
      · exact Or.inr hi

/-- An `ilike` containment holds exactly when the lowercased needle is an infix of the
lowercased haystack. -/
theorem containsCI_iff {hay needle : String} :
    containsCI hay needle = true ↔ List.IsInfix (lowerStr needle) (lowerStr hay) :=
  substrAux_eq_true_iff _ _

theorem queryFilterMatch_eq {input : SearchArticlesInput} {a : Article} {q : String}
    (hq : input.query = some q) (hne : q.isEmpty = false) :
    queryFilterMatch input a = (containsCI a.title q || containsCI a.content q) := by
  unfold queryFilterMatch
  rw [hq]
  show (if q.isEmpty = true then true else containsCI a.title q || containsCI a.content q) = _
  rw [hne]
  simp

/-- C6: a non-empty query selects exactly the rows whose title or content
contains the query as a case-insensitive substring (OR between the two
fields, AND with the remaining filters), and changing only the letter case
of the query does not change the result of `searchArticles` at all. -/
theorem searchArticles_query_filter (db : DB) (input : SearchArticlesInput) :
    (∀ q, input.query = some q → q ≠ "" →
      ∀ p : Article × Category, p ∈ searchSorted db input ↔
        p ∈ joinedRows db
        ∧ (List.IsInfix (lowerStr q) (lowerStr p.1.title)
            ∨ List.IsInfix (lowerStr q) (lowerStr p.1.content))
        ∧ (categoryFilterMatch input p.1 && statusFilterMatch input p.1
            && tagFilterMatch db input p.1) = true)
    ∧ (∀ q1 q2, lowerStr q1 = lowerStr q2 → (q1 = "" ↔ q2 = "") →
        searchArticles db { input with query := some q1 }
          = searchArticles db { input with query := some q2 }) := by
  constructor
  · intro q hq hqne p
    have hnemp : q.isEmpty = false := by
      rw [Bool.eq_false_iff]
      intro h
      exact hqne ((String.isEmpty_iff q).1 h)
    rw [mem_searchSorted_iff]
    unfold articleMatches
    rw [queryFilterMatch_eq hq hnemp]
    rw [Bool.and_eq_true, Bool.and_eq_true, Bool.and_eq_true, Bool.or_eq_true]
    constructor
    · rintro ⟨hrow, ⟨⟨hq', hc⟩, hs⟩, ht⟩
      refine ⟨hrow, ?_, ?_⟩
      · rcases hq' with h | h
        · exact Or.inl (containsCI_iff.1 h)
        · exact Or.inr (containsCI_iff.1 h)
      · rw [Bool.and_eq_true, Bool.and_eq_true]
        exact ⟨⟨hc, hs⟩, ht⟩
    · rintro ⟨hrow, hinfix, hrest⟩
      rw [Bool.and_eq_true, Bool.and_eq_true] at hrest
      refine ⟨hrow, ⟨⟨?_, hrest.1.1⟩, hrest.1.2⟩, hrest.2⟩
      rcases hinfix with h | h
      · exact Or.inl (containsCI_iff.2 h)
      · exact Or.inr (containsCI_iff.2 h)
  · intro q1 q2 hlow hiff
    have hemp : q1.isEmpty = q2.isEmpty := by
      cases h1 : q1.isEmpty with
      | true =>
        have := hiff.1 ((String.isEmpty_iff q1).1 h1)
        exact ((String.isEmpty_iff q2).2 this).symm
      | false =>
        cases h2 : q2.isEmpty with
        | true =>
          exfalso
          have hq1 : q1 = "" := hiff.2 ((String.isEmpty_iff q2).1 h2)
          rw [hq1] at h1
          exact absurd h1 (by decide)
        | false => rfl
    have hqf : ∀ a : Article,
        queryFilterMatch { input with query := some q1 } a
          = queryFilterMatch { input with query := some q2 } a := by
      intro a
      show (if q1.isEmpty = true then true
          else containsCI a.title q1 || containsCI a.content q1)
        = (if q2.isEmpty = true then true
          else containsCI a.title q2 || containsCI a.content q2)
      rw [hemp]
      have hc1 : containsCI a.title q1 = containsCI a.title q2 := by
        unfold containsCI
        rw [hlow]
      have hc2 : containsCI a.content q1 = containsCI a.content q2 := by
        unfold containsCI
        rw [hlow]
      rw [hc1, hc2]
    have hmatch : ∀ a : Article,
        articleMatches db { input with query := some q1 } a
          = articleMatches db { input with query := some q2 } a := by
      intro a
      unfold articleMatches
      rw [hqf a]
      rfl
    have hfilter : (joinedRows db).filter
          (fun r => articleMatches db { input with query := some q1 } r.1)
        = (joinedRows db).filter
          (fun r => articleMatches db { input with query := some q2 } r.1) :=
      List.filter_congr (fun r _ => hmatch r.1)
    unfold searchArticles searchSorted
    rw [hfilter]

/-- C6 (witness): `dbW`'s article content is "hello world"; the queries
"WORLD" and "world" produce identical results and the membership
characterization holds at the article row. -/
theorem searchArticles_query_filter_witness :
    ((artW, catW) ∈ searchSorted dbW { searchInputW with query := some "WORLD" } ↔
      (artW, catW) ∈ joinedRows dbW
      ∧ (List.IsInfix (lowerStr "WORLD") (lowerStr artW.title)
          ∨ List.IsInfix (lowerStr "WORLD") (lowerStr artW.content))
      ∧ (categoryFilterMatch { searchInputW with query := some "WORLD" } artW
          && statusFilterMatch { searchInputW with query := some "WORLD" } artW
          && tagFilterMatch dbW { searchInputW with query := some "WORLD" } artW) = true)
    ∧ searchArticles dbW { searchInputW with query := some "WORLD" }
        = searchArticles dbW { searchInputW with query := some "world" } := by
  have h := searchArticles_query_filter dbW { searchInputW with query := some "WORLD" }
  refine ⟨h.1 "WORLD" rfl (by decide) (artW, catW), ?_⟩
  have h2 := (searchArticles_query_filter dbW searchInputW).2 "WORLD" "world"
    (by decide) (by decide)
  exact h2


/-- Consecutive `LIMIT L OFFSET i*L` chunks concatenate back to the whole
list once `k*L` covers its length. -/
theorem flatten_chunks {α : Type} (L : Nat) :
    ∀ (k : Nat) (l : List α), l.length ≤ k * L →
      ((List.range k).map (fun i => (l.drop (i * L)).take L)).flatten = l := by
  intro k
  induction k with
  | zero =>
    intro l hl
    rw [Nat.zero_mul, Nat.le_zero] at hl
    rw [List.length_eq_zero] at hl
    subst hl
    rfl
  | succ n ih =>
    intro l hl
    rw [List.range_succ_eq_map, List.map_cons, List.map_map, List.flatten_cons]
    have hcomp : ((fun i => (l.drop (i * L)).take L) ∘ Nat.succ)
        = fun i => ((l.drop L).drop (i * L)).take L := by
      funext i
      show (l.drop ((i + 1) * L)).take L = _
      rw [List.drop_drop, Nat.succ_mul, Nat.add_comm (i * L) L]
    rw [hcomp]
    rw [ih (l.drop L) (by rw [List.length_drop, Nat.succ_mul] at *; omega)]
    rw [Nat.zero_mul, List.drop_zero, List.take_append_drop]

/-- Two distinct `LIMIT L OFFSET i*L` chunks of a duplicate-free list share
no element. -/
theorem chunks_disjoint {α : Type} {l : List α} (hnd : l.Nodup) (L i j : Nat)
    (hij : i < j) (x : α) (hxi : x ∈ (l.drop (i * L)).take L)
    (hxj : x ∈ (l.drop (j * L)).take L) : False := by
  have h1 : x ∈ l.take (i * L + L) := by
    rw [List.take_drop] at hxi
    exact List.drop_subset _ _ hxi
  have h2 : x ∈ l.drop (i * L + L) := by
    have hle : i * L + L ≤ j * L := by
      have := Nat.mul_le_mul_right L (Nat.succ_le_of_lt hij)
      rw [Nat.succ_mul] at this
      omega
    have hx : x ∈ l.drop (j * L) := List.take_subset _ _ hxj
    have : l.drop (j * L) = (l.drop (i * L + L)).drop (j * L - (i * L + L)) := by
      rw [List.drop_drop]
      congr 1
      omega
    rw [this] at hx
    exact List.drop_subset _ _ hx
  have hnd2 : (l.take (i * L + L) ++ l.drop (i * L + L)).Nodup := by
    rw [List.take_append_drop]
    exact hnd
  exact List.disjoint_of_nodup_append hnd2 h1 h2

/-- The list `searchSorted` does not depend on the pagination fields. -/
theorem searchSorted_pagination_free (db : DB) (input : SearchArticlesInput)
    (L o : Nat) :
    searchSorted db { input with limit := L, offset := o } = searchSorted db input := rfl

theorem searchArticles_page_eq (db : DB) (input : SearchArticlesInput) (L o : Nat) :
    searchArticles db { input with limit := L, offset := o }
      = (((searchSorted db input).drop o).take L).map
          (fun r => ArticleWithRelations.mk r.1 r.2 (articleTagsFor db r.1.id)) := rfl

/-- C7: for a fixed filter combination and any page size `L ∈ [1,100]`,
the pages at offsets `0, L, 2L, ...` are pairwise disjoint and concatenate to
the whole filtered result set ordered by `created_at` descending; the schema
defaults `limit` to 10 and `offset` to 0 when omitted and only accepts
`limit ∈ [1,100]`. -/
theorem searchArticles_pagination (db : DB) (input : SearchArticlesInput)
    (L k : Nat) (hL1 : 1 ≤ L) (hL100 : L ≤ 100)
    (hk : (searchSorted db input).length ≤ k * L)
    (hnd : (db.articles.map Article.id).Nodup) :
    (((List.range k).map
        (fun i => searchArticles db { input with limit := L, offset := i * L })).flatten
      = (searchSorted db input).map
          (fun r => ArticleWithRelations.mk r.1 r.2 (articleTagsFor db r.1.id)))
    ∧ (∀ i j, i ≠ j → ∀ x,
        x ∈ searchArticles db { input with limit := L, offset := i * L } →
          x ∉ searchArticles db { input with limit := L, offset := j * L })
    ∧ (∀ raw : RawSearchInput, raw.limit = none → raw.offset = none →
        parseSearchArticlesInput raw =
          .ok ⟨raw.query, raw.category_id, raw.tag_ids, raw.status, 10, 0⟩)
    ∧ (∀ raw out, parseSearchArticlesInput raw = .ok out →
        1 ≤ out.limit ∧ out.limit ≤ 100) := by
  have hpage : ∀ i, searchArticles db { input with limit := L, offset := i * L }
      = (((searchSorted db input).drop (i * L)).take L).map
          (fun r => ArticleWithRelations.mk r.1 r.2 (articleTagsFor db r.1.id)) :=
    fun i => searchArticles_page_eq db input L (i * L)
  have hsortnd : (searchSorted db input).Nodup := by
    have := searchSorted_fst_id_nodup db input hnd
    exact (List.Nodup.of_map _) this
  refine ⟨?_, ?_, ?_, ?_⟩
  · have hmapeq : (List.range k).map
        (fun i => searchArticles db { input with limit := L, offset := i * L })
        = ((List.range k).map
            (fun i => ((searchSorted db input).drop (i * L)).take L)).map
          (List.map (fun r => ArticleWithRelations.mk r.1 r.2 (articleTagsFor db r.1.id))) := by
      rw [List.map_map]
      exact List.map_congr_left (fun i _ => hpage i)
    rw [hmapeq, ← List.map_flatten, flatten_chunks L k (searchSorted db input) hk]
  · intro i j hij x hxi hxj
    rw [hpage i] at hxi
    rw [hpage j] at hxj
    obtain ⟨p, hp, hpx⟩ := List.mem_map.1 hxi
    obtain ⟨p2, hp2, hp2x⟩ := List.mem_map.1 hxj
    have hpp2 : p = p2 := by
      have h1 : p.1 = p2.1 ∧ p.2 = p2.2 := by
        have := hpx.trans hp2x.symm
        exact ⟨congrArg ArticleWithRelations.article this,
          congrArg ArticleWithRelations.category this⟩
      cases p
      cases p2
      simp only [Prod.mk.injEq]
      exact h1
    subst hpp2
    rcases Nat.lt_or_ge i j with h | h
    · exact chunks_disjoint hsortnd L i j h p hp hp2
    · have hj : j < i := Nat.lt_of_le_of_ne h (fun he => hij he.symm)
      exact chunks_disjoint hsortnd L j i hj p hp2 hp
  · intro raw hlim hoff
    unfold parseSearchArticlesInput
    rw [hlim]
    unfold parseSearchArticlesInput.parseOffset
    rw [hoff]
  · intro raw out hout
    unfold parseSearchArticlesInput at hout
    split at hout
    · rename_i hnone
      unfold parseSearchArticlesInput.parseOffset at hout
      split at hout
      · simp only [Except.ok.injEq] at hout
        subst hout
        exact ⟨show (1 : Nat) ≤ 10 by decide, show (10 : Nat) ≤ 100 by decide⟩
      · split at hout
        · simp only [Except.ok.injEq] at hout
          subst hout
          exact ⟨show (1 : Nat) ≤ 10 by decide, show (10 : Nat) ≤ 100 by decide⟩
        · exact absurd hout (by simp)
    · rename_i v hsome
      split at hout
      · rename_i hrange
        unfold parseSearchArticlesInput.parseOffset at hout
        have hlim : out.limit = v.toNat := by
          split at hout
          · simp only [Except.ok.injEq] at hout
            subst hout
            rfl
          · split at hout
            · simp only [Except.ok.injEq] at hout
              subst hout
              rfl
            · exact absurd hout (by simp)
        rw [hlim]
        omega
      · exact absurd hout (by simp)

/-- C7 (witness): instantiation at `dbW` with `L = 2`, `k = 1`, plus the
schema defaults. -/
theorem searchArticles_pagination_witness :
    (((List.range 1).map
        (fun i => searchArticles dbW { searchInputW with limit := 2, offset := i * 2 })).flatten
      = (searchSorted dbW searchInputW).map
          (fun r => ArticleWithRelations.mk r.1 r.2 (articleTagsFor dbW r.1.id)))
    ∧ parseSearchArticlesInput ⟨none, none, none, none, none, none⟩ =
        .ok ⟨none, none, none, none, 10, 0⟩ := by
  have h := searchArticles_pagination dbW searchInputW 2 1 (by decide) (by decide)
    (by decide) (by decide)
  exact ⟨h.1, h.2.2.1 ⟨none, none, none, none, none, none⟩ rfl rfl⟩


end Blog
